import Mathlib

set_option maxRecDepth 4000

/-!
Verification development for the kanta face-ingestion, clustering and
similarity-search engine.  The definitions below are shallow embeddings of
the corresponding Python functions; file and line references point into the
repository sources.
-/

namespace Kanta

/-! ### Clustering job: label post-processing
Embeds src/cluster-faces/src/clustering.py, chinese_whispers_cluster,
lines 185-192: the raw node labels are collected, np.unique produces the
sorted distinct labels, each raw label is replaced by its index in that
sorted list, and if only one distinct label exists every face gets -1. -/

/-- Distinct elements of a list in first-seen order (the order of first
occurrence while scanning left to right). -/
def firstSeenDistinct (l : List Int) : List Int :=
  l.foldl (fun acc x => if x ∈ acc then acc else acc ++ [x]) []

/-- Sorted distinct labels, the embedding of numpy.unique on an integer
array (np.unique returns the sorted distinct values). -/
def uniqueSorted (raw : List Int) : List Int :=
  List.insertionSort (· ≤ ·) (firstSeenDistinct raw)

/-- Embedding of the label extraction and remap of chinese_whispers_cluster
(src/cluster-faces/src/clustering.py lines 185-192): build the sorted
distinct labels, map each raw label to its index there, and return all -1
when a single distinct label remains. -/
def cwPostprocess (raw : List Int) : List Int :=
  let unique := uniqueSorted raw
  let labels := raw.map (fun lab => (unique.indexOf lab : Int))
  if unique.length = 1 then List.replicate raw.length (-1) else labels

/-- Normalization as the spec words it (spec.md section 4.4): any native
noise designation maps to -1; all other raw labels are remapped to
contiguous non-negative integers assigned in first-seen order over the
faces.  The noise predicate identifies the algorithm's native noise
designation (none for Chinese Whispers). -/
def specNormalizeLabels (noise : Int → Bool) (raw : List Int) : List Int :=
  let distinct := firstSeenDistinct (raw.filter (fun l => !(noise l)))
  raw.map (fun l => if noise l then -1 else (distinct.indexOf l : Int))

/-! ### Clustering job: per-event run step
Embeds src/cluster-faces/main.py, run, lines 106-228: events with fewer
than two faces are skipped; the selected algorithm runs inside try/except;
on an exception the loop logs and continues (no DB write for that event);
on success update_clusters writes one label per face id. -/

/-- Face-id/label pair list written by update_clusters
(src/cluster-faces/main.py lines 74-90): labels are zipped with face ids. -/
def updateClustersRows (faceIds : List Nat) (labels : List Int) : List (Nat × Int) :=
  faceIds.zip labels

/-- Embedding of one iteration of the event loop of run
(src/cluster-faces/main.py lines 106-228).  The clustering call is
abstracted by its result: ok labels, or error when the algorithm raised.
Returns the rows update_clusters would write, or none when the event is
skipped (fewer than two faces, or the except branch hit continue). -/
def runEventUpdates (rows : List (Nat × List ℚ))
    (algoResult : Except String (List Int)) : Option (List (Nat × Int)) :=
  let faceIds := rows.map (fun r => r.1)
  if rows.length < 2 then none
  else
    match algoResult with
    | .error _ => none
    | .ok labels => some (updateClustersRows faceIds labels)

/-- A face row as the clustering job sees it: id and current label. -/
structure FaceLab where
  id : Nat
  label : Int
deriving DecidableEq

/-- Apply the updates of runEventUpdates to the persisted labels: none
means no statement was issued, so labels stay; otherwise each listed face
id receives its new label. -/
def applyEventUpdates (prev : List FaceLab) (u : Option (List (Nat × Int))) :
    List FaceLab :=
  match u with
  | none => prev
  | some us =>
      prev.map (fun f =>
        match us.find? (fun p => p.1 == f.id) with
        | some p => ⟨f.id, p.2⟩
        | none => f)

/-! ### Chinese Whispers pipeline
Embeds src/cluster-faces/src/clustering.py, chinese_whispers_cluster,
lines 149-194.  The graph construction (nodes 0..n-1, an edge between i
and j when the euclidean distance is below the threshold, weighted
1/(1+dist)) is source code; the call
chinese_whispers.chinese_whispers(G, weighting=weighting) is a third-party
library invoked WITHOUT a seed, so its node visiting order and tie-breaks
depend on ambient RNG state.  The library's documented update rule is
modelled below with that ambient state as an explicit argument. -/

/-- A weighted undirected edge of the face graph. -/
structure CWEdge where
  a : Nat
  b : Nat
  w : ℚ
deriving DecidableEq

/-- Graph construction of chinese_whispers_cluster
(src/cluster-faces/src/clustering.py lines 166-180): an edge between each
pair i < j whose distance is below the threshold, with weight
1/(1+dist).  The metric is scipy's euclidean, kept as a parameter. -/
def buildEdges (d : List ℚ → List ℚ → ℚ) (pts : List (List ℚ))
    (threshold : ℚ) : List CWEdge :=
  (List.range pts.length).flatMap (fun i =>
    (List.range pts.length).filterMap (fun j =>
      if i < j then
        let dist := d (pts.getD i []) (pts.getD j [])
        if dist < threshold then some ⟨i, j, 1 / (1 + dist)⟩ else none
      else none))

/-- Ambient randomness consumed by the unseeded chinese_whispers library
call: the node visiting order of each iteration and the tie-break choices.
The repository passes no seed (src/cluster-faces/src/clustering.py line
183), so this state differs between runs of the job. -/
structure CWRng where
  visitOrder : Nat → List Nat
  tiePick : Nat → Nat → Nat

/-- Neighbors of node v with edge weights, in edge-list order. -/
def neighborsOf (edges : List CWEdge) (v : Nat) : List (Nat × ℚ) :=
  edges.filterMap (fun e =>
    if e.a = v then some (e.b, e.w)
    else if e.b = v then some (e.a, e.w) else none)

/-- Total neighbor weight per label, labels listed in first-seen order. -/
def labelWeights (labs : List Int) (nbrs : List (Nat × ℚ)) : List (Int × ℚ) :=
  (firstSeenDistinct (nbrs.map (fun p => labs.getD p.1 0))).map
    (fun l => (l, ((nbrs.filter (fun p => labs.getD p.1 0 == l)).map
      (fun p => p.2)).sum))

/-- Modelled from the spec: one pass of the Chinese Whispers update rule of
the external chinese_whispers library (the library itself is not part of
this repository; spec.md sections 4.4 and 9 describe it as the pluggable
graph-community algorithm).  Each visited node adopts the label with the
greatest total neighbor weight; among tied labels the ambient tie-break
choice decides. -/
def cwPass (edges : List CWEdge) (order : List Nat) (tie : Nat → Nat)
    (labs0 : List Int) : List Int :=
  order.foldl (fun labs v =>
    let nbrs := neighborsOf edges v
    if nbrs.isEmpty then labs
    else
      let lw := labelWeights labs nbrs
      let maxw := (lw.map (fun p => p.2)).foldl max 0
      let tied := (lw.filter (fun p => p.2 == maxw)).map (fun p => p.1)
      if tied.isEmpty then labs
      else labs.set v (tied.getD (tie v % tied.length) 0)) labs0

/-- Modelled from the spec: the iterated Chinese Whispers run of the
external library, starting from labels 0..n-1 and performing the given
number of passes (the library default of 20 is used by the repository,
which passes no iteration count). -/
def cwLibRun (edges : List CWEdge) (rng : CWRng) : Nat → List Int → List Int
  | 0, labs => labs
  | k + 1, labs =>
      cwLibRun edges rng k (cwPass edges (rng.visitOrder k) (rng.tiePick k) labs)

/-- Raw node labels of the library run inside chinese_whispers_cluster
(src/cluster-faces/src/clustering.py lines 165-186): the threshold graph
is built and the unseeded library iterates from the initial labels
0..n-1. -/
def cwRawLabels (d : List ℚ → List ℚ → ℚ) (pts : List (List ℚ))
    (threshold : ℚ) (rng : CWRng) : List Int :=
  cwLibRun (buildEdges d pts threshold) rng 20
    ((List.range pts.length).map Int.ofNat)

/-- Embedding of chinese_whispers_cluster
(src/cluster-faces/src/clustering.py lines 149-194): build the threshold
graph, run the (unseeded) library, then post-process the raw labels.  The
ambient RNG state is an explicit argument because the source passes no
seed to the library. -/
def chineseWhispersCluster (d : List ℚ → List ℚ → ℚ) (pts : List (List ℚ))
    (threshold : ℚ) (rng : CWRng) : List Int :=
  cwPostprocess (cwRawLabels d pts threshold rng)

/-- Scipy's euclidean metric restricted to 1-dimensional vectors, where it
equals the absolute difference (used for concrete instances). -/
def euclid1 (u v : List ℚ) : ℚ := |u.headD 0 - v.headD 0|

/-- Concrete 1-dimensional embeddings: two tight pairs and one midpoint
equally attracted to both pairs. -/
def cwPoints : List (List ℚ) := [[-11/10], [-1], [0], [1], [11/10]]

/-- The edge list the threshold graph of cwPoints evaluates to: both
pairs are tightly connected, and the midpoint is connected to all four
other points. -/
def cwEdgesEx : List CWEdge :=
  [⟨0, 1, 10/11⟩, ⟨0, 2, 10/21⟩, ⟨1, 2, 1/2⟩, ⟨2, 3, 1/2⟩, ⟨2, 4, 10/21⟩,
    ⟨3, 4, 10/11⟩]

/-- One ambient RNG state: ascending visit order, ties resolved to the
first candidate. -/
def rngA : CWRng := ⟨fun _ => [0, 1, 2, 3, 4], fun _ _ => 0⟩

/-- Another ambient RNG state: same visit order, ties resolved to the
second candidate. -/
def rngB : CWRng := ⟨fun _ => [0, 1, 2, 3, 4], fun _ _ => 1⟩

/-! ### Backend data model
Embeds src/backend/src/app/events/models.py and
src/backend/src/app/images/models.py.  Timestamps are integers; the row
ids assigned by the database sequences are carried as plain fields. -/

/-- An events row (src/backend/src/app/events/models.py): id and its
unique external code (the time window is not needed by the claims). -/
structure EventRec where
  id : Nat
  code : String
deriving DecidableEq

/-- Stored bounding box {x, y, width, height}
(src/backend/src/app/images/models.py, Face.bbox). -/
structure BBox where
  x : Int
  y : Int
  width : Int
  height : Int
deriving DecidableEq

/-- A detector box in face_recognition's (top, right, bottom, left)
convention (src/backend/src/app/images/service.py, do_face_recognition). -/
structure Box4 where
  top : Int
  right : Int
  bottom : Int
  left : Int
deriving DecidableEq

/-- An images row (src/backend/src/app/images/models.py, Image). -/
structure ImageRec where
  id : Nat
  event_id : Nat
  uuid : String
  azure_blob_url : String
  file_extension : String
  faces : Nat
  created_at : Int
  last_modified : Int
deriving DecidableEq

/-- A faces row (src/backend/src/app/images/models.py, Face). -/
structure FaceRec where
  id : Nat
  event_id : Nat
  image_id : Nat
  bbox : BBox
  embedding : List ℚ
  cluster_id : Int
deriving DecidableEq

/-- The relational state the backend services act on. -/
structure Db where
  events : List EventRec
  images : List ImageRec
  faces : List FaceRec
deriving DecidableEq

/-- Event lookup of get_event (src/backend/src/app/events/service.py
lines 52-70): select by unique code, none when absent (the service then
raises EventNotFound). -/
def findEvent (db : Db) (code : String) : Option EventRec :=
  db.events.find? (fun e => e.code == code)

/-- Error taxonomy of the HTTP layer: 400 bad request and 404 not found,
with their detail message. -/
inductive HttpError where
  | badRequest (msg : String)
  | notFound (msg : String)
deriving DecidableEq

/-! ### Ingestion: upload endpoint
Embeds src/backend/src/app/images/router.py, upload, lines 140-200: a
MIME guard, then the raw bytes are read, a fresh uuid4 hex is generated,
the full processing job is enqueued as a background task, and the
response is returned immediately with blob_url empty, faces 0 and empty
boxes/embeddings.  The freshly generated identifier is a parameter. -/

/-- Response schema of the upload endpoint
(src/backend/src/app/images/schemas.py, UploadImageResponse). -/
structure UploadImageResponse where
  uuid : String
  blob_url : String
  faces : Nat
  boxes : List Box4
  embeddings : List (List ℚ)
deriving DecidableEq

/-- Character-level model of Python str.startswith. -/
def strStartsWith (s pre : String) : Bool :=
  pre.data.isPrefixOf s.data

/-- Embedding of the upload route handler
(src/backend/src/app/images/router.py lines 140-200).  The raw bytes are
only handed to the background job and never inspected here. -/
def uploadRoute (contentType : String) (rawBytes : List Nat)
    (freshUuid : String) : Except HttpError UploadImageResponse :=
  if !(strStartsWith contentType "image/") then
    .error (.badRequest "Must upload an image")
  else
    let _ := rawBytes
    .ok ⟨freshUuid, "", 0, [], []⟩

/-! ### Ingestion: full processing job
Embeds src/backend/src/app/images/service.py, full_processing_job, lines
168-306.  Each fallible external step (event lookup already modelled by
the Db, the Azure upload, the image-row commit, the detection executor
call, the face-count commit, the face-rows commit) is abstracted by its
outcome. -/

/-- Outcomes of the fallible steps of one run of full_processing_job. -/
structure JobEnv where
  uploadOk : Bool
  imageInsertOk : Bool
  detect : Option (List Box4 × List (List ℚ))
  countCommitOk : Bool
  facesCommitOk : Bool

/-- File extensions accepted verbatim by full_processing_job
(src/backend/src/app/images/service.py line 212). -/
def allowedExts : List String := ["jpg", "jpeg", "png", "bmp", "gif", "tiff"]

/-- Extension derivation of full_processing_job
(src/backend/src/app/images/service.py lines 207-213): the lower-cased
text after the last dot when one exists (rsplit at character level),
defaulting to png for missing or unrecognized extensions. -/
def extOf (filename : String) : String :=
  let cs := filename.data
  let e :=
    if cs.any (fun c => c == '.') then
      String.mk (((cs.reverse.takeWhile (fun c => c != '.')).reverse).map Char.toLower)
    else "png"
  if allowedExts.contains e then e else "png"

/-- Bounding-box conversion of full_processing_job
(src/backend/src/app/images/service.py lines 283-289): from the
detector's (top, right, bottom, left) to the stored {x, y, width,
height}. -/
def bboxOfBox4 (b : Box4) : BBox :=
  ⟨b.left, b.top, b.right - b.left, b.bottom - b.top⟩

/-- Face row built for one detected face
(src/backend/src/app/images/service.py lines 290-297); the row id is
assigned later by the database sequence and is not modelled. -/
def faceRowOf (eventId imageId : Nat) (be : Box4 × List ℚ) : FaceRec :=
  ⟨0, eventId, imageId, bboxOfBox4 be.1, be.2, -2⟩

/-- Terminal database state of one processing job, restricted to the rows
this job touches: the image row, and its face rows. -/
structure JobResult where
  image : Option ImageRec
  faceRows : List FaceRec
deriving DecidableEq

/-- Embedding of full_processing_job
(src/backend/src/app/images/service.py lines 168-306).  Every early
return of the source maps to a terminal JobResult; the two post-detection
commits are independent, as in the source where a failed face-count
commit is logged and the face rows are still inserted. -/
def fullProcessingJob (db : Db) (env : JobEnv)
    (eventCode imageUuid rawFilename containerUrl : String)
    (newImageId : Nat) (createdAt lastModified : Int) : JobResult :=
  match findEvent db eventCode with
  | none => ⟨none, []⟩
  | some event =>
    let ext := extOf rawFilename
    let blobName := "images/" ++ imageUuid ++ "." ++ ext
    match env.uploadOk with
    | false => ⟨none, []⟩
    | true =>
      match env.imageInsertOk with
      | false => ⟨none, []⟩
      | true =>
        let img0 : ImageRec :=
          ⟨newImageId, event.id, imageUuid, containerUrl ++ "/" ++ blobName,
            ext, 0, createdAt, lastModified⟩
        match env.detect with
        | none => ⟨some img0, []⟩
        | some (boxes, embs) =>
          let faceCount := embs.length
          let img1 :=
            match env.countCommitOk with
            | true => { img0 with faces := faceCount }
            | false => img0
          let rows := (boxes.zip embs).map (faceRowOf event.id newImageId)
          let persisted :=
            match boxes, env.facesCommitOk with
            | [], _ => []
            | _ :: _, true => rows
            | _ :: _, false => []
          ⟨some img1, persisted⟩

/-! ### Similarity search
Embeds src/backend/src/app/clusters/service.py, find_similar_faces,
lines 167-266.  The model additionally records which extraction steps
(decode, detect, encode) ran, in execution order. -/

/-- Extraction work performed on the query bytes. -/
inductive ExtractStep where
  | decode
  | detect
  | encode
deriving DecidableEq

/-- External collaborators of find_similar_faces: PIL decoding,
face_recognition detection and encoding, and the pgvector distance
operator semantics (first argument is the operator text). -/
structure SimEnv where
  decode : List Nat → Option Nat
  faceLocations : Nat → List Box4
  faceEncodings : Nat → List Box4 → List (List ℚ)
  dist : String → List ℚ → List ℚ → ℚ

/-- Result schema of find_similar_faces
(src/backend/src/app/clusters/schemas.py, SimilarFaceOut). -/
structure SimilarFaceOut where
  face_id : Nat
  image_uuid : String
  azure_blob_url : String
  cluster_id : Int
  bbox : BBox
  embedding : List ℚ
  distance : ℚ
deriving DecidableEq

/-- Embedding of find_similar_faces
(src/backend/src/app/clusters/service.py lines 167-266), in source
order: decode (400 on failure), detect exactly one face (400 otherwise),
encode, event lookup (404 when unknown), then the event-scoped pgvector
query ordered by ascending distance and truncated to top_k.  The second
component records the extraction steps that ran. -/
def findSimilarFaces (db : Db) (env : SimEnv) (eventCode : String)
    (rawBytes : List Nat) (metric : String) (topK : Nat) :
    Except HttpError (List SimilarFaceOut) × List ExtractStep :=
  match env.decode rawBytes with
  | none => (.error (.badRequest "Invalid image data"), [.decode])
  | some img =>
    let boxes := env.faceLocations img
    if boxes.length != 1 then
      (.error (.badRequest
        (if boxes.isEmpty then
          "No face detected, please upload an image with exactly one face"
        else
          "Multiple faces detected, please upload an image with exactly one face")),
        [.decode, .detect])
    else
      let emb := (env.faceEncodings img boxes).headD []
      match findEvent db eventCode with
      | none =>
          (.error (.notFound ("Event with code '" ++ eventCode ++ "' not found")),
            [.decode, .detect, .encode])
      | some event =>
        let op := if metric == "cosine" then "<=>" else "<->"
        let joined := (db.faces.filter (fun f => f.event_id == event.id)).filterMap
          (fun f => (db.images.find? (fun i => i.id == f.image_id)).map
            (fun i => (⟨f.id, i.uuid, i.azure_blob_url, f.cluster_id, f.bbox,
              f.embedding, env.dist op f.embedding emb⟩ : SimilarFaceOut)))
        let ordered := List.insertionSort (fun x y => x.distance ≤ y.distance) joined
        (.ok (ordered.take topK), [.decode, .detect, .encode])

/-! ### Image repository operations
Embeds src/backend/src/app/images/service.py: get_images (lines 37-92),
get_image_detail (lines 98-127) and delete_image (lines 760-799), and the
delete route of src/backend/src/app/images/router.py (lines 206-231). -/

/-- Face summary of the detail response
(src/backend/src/app/images/schemas.py, FaceSummary). -/
structure FaceSummary where
  face_id : Nat
  cluster_id : Int
  bbox : BBox
deriving DecidableEq

/-- Detail response of get_image_detail. -/
structure ImageDetail where
  image : ImageRec
  faces : List FaceSummary
deriving DecidableEq

/-- Embedding of get_image_detail
(src/backend/src/app/images/service.py lines 98-127): the image is
selected by its uuid alone, with its faces loaded through the
relationship on image_id; no event filter appears in the query. -/
def getImageDetail (db : Db) (uuid : String) : Except HttpError ImageDetail :=
  match db.images.find? (fun i => i.uuid == uuid) with
  | none => .error (.notFound ("Image `" ++ uuid ++ "` not found"))
  | some img =>
      .ok ⟨img, (db.faces.filter (fun f => f.image_id == img.id)).map
        (fun f => ⟨f.id, f.cluster_id, f.bbox⟩)⟩

/-- Embedding of delete_image
(src/backend/src/app/images/service.py lines 760-799): the image is
selected by its uuid alone and deleted, its faces removed by the cascade;
no event filter appears in the query. -/
def deleteImage (db : Db) (uuid : String) : Except HttpError Db :=
  match db.images.find? (fun i => i.uuid == uuid) with
  | none => .error (.notFound ("Image `" ++ uuid ++ "` not found"))
  | some img =>
      .ok { db with
        images := db.images.filter (fun i => !(i.id == img.id)),
        faces := db.faces.filter (fun f => !(f.image_id == img.id)) }

/-- Embedding of the delete route
(src/backend/src/app/images/router.py lines 206-231): the path carries an
event code, but the handler ignores it and calls delete_image with the
uuid only. -/
def deleteRoute (eventCode imageUuid : String) (db : Db) : Except HttpError Db :=
  let _ := eventCode
  deleteImage db imageUuid

/-- Conditional filter applied only when the optional criterion is
present, as the `if x is not None` guards of get_images. -/
def filterOpt {β : Type} (s : List ImageRec) (o : Option β)
    (p : β → ImageRec → Bool) : List ImageRec :=
  match o with
  | some b => s.filter (p b)
  | none => s

/-- Cluster-membership filter of get_images: applied only when a
non-empty cluster id list is supplied (the Python truthiness guard
`if cluster_list_id`), keeping images having a face in any listed
cluster. -/
def clusterFilter (db : Db) (s : List ImageRec) (o : Option (List Int)) :
    List ImageRec :=
  match o with
  | some cl =>
      if cl.isEmpty then s
      else s.filter (fun i =>
        db.faces.any (fun f => f.image_id == i.id && cl.contains f.cluster_id))
  | none => s

/-- Embedding of get_images
(src/backend/src/app/images/service.py lines 37-92): resolve the event,
filter its images by the optional criteria, order by last_modified
descending, then apply offset and limit. -/
def getImages (db : Db) (eventCode : String) (limit offset : Nat)
    (dateFrom dateTo : Option Int) (minFaces maxFaces : Option Nat)
    (clusterListId : Option (List Int)) : Except HttpError (List ImageRec) :=
  match findEvent db eventCode with
  | none => .error (.notFound ("Event with code '" ++ eventCode ++ "' not found"))
  | some event =>
    let s0 := db.images.filter (fun i => i.event_id == event.id)
    let s1 := filterOpt s0 dateFrom (fun t i => t ≤ i.created_at)
    let s2 := filterOpt s1 dateTo (fun t i => i.created_at ≤ t)
    let s3 := filterOpt s2 minFaces (fun m i => m ≤ i.faces)
    let s4 := filterOpt s3 maxFaces (fun m i => i.faces ≤ m)
    let s5 := clusterFilter db s4 clusterListId
    let ordered := List.insertionSort (fun x y => y.last_modified ≤ x.last_modified) s5
    .ok ((ordered.drop offset).take limit)

/-! ### Cluster summary
Embeds src/backend/src/app/clusters/service.py, get_cluster_summary,
lines 21-101: group the event's faces by cluster_id, count each group,
lateral-sample up to sample_size faces per group in random order, join
the image of each sample, and return the clusters sorted by id.  ORDER BY
RANDOM() is modelled by a permutation oracle. -/

/-- Sample entry of the summary
(src/backend/src/app/clusters/schemas.py, ClusterSample). -/
structure ClusterSample where
  face_id : Nat
  sample_blob_url : String
  sample_bbox : BBox
deriving DecidableEq

/-- Summary entry (src/backend/src/app/clusters/schemas.py, ClusterInfo). -/
structure ClusterInfo where
  cluster_id : Int
  face_count : Nat
  samples : List ClusterSample
deriving DecidableEq

/-- Faces of one cluster of one event, in table order. -/
def clusterFaces (db : Db) (eventId : Nat) (cid : Int) : List FaceRec :=
  db.faces.filter (fun f => f.event_id == eventId && f.cluster_id == cid)

/-- Sorted distinct cluster ids of an event (the GROUP BY of the summary
CTE combined with the outer ORDER BY s.cluster_id). -/
def eventClusterIds (db : Db) (eventId : Nat) : List Int :=
  uniqueSorted ((db.faces.filter (fun f => f.event_id == eventId)).map
    (fun f => f.cluster_id))

/-- Embedding of get_cluster_summary
(src/backend/src/app/clusters/service.py lines 21-101).  The shuffle
argument models ORDER BY RANDOM() inside the lateral subquery: for each
cluster it returns that cluster's rows in some order.  Clusters whose
sampled rows all drop out (no subquery row survives the image join, or a
zero limit) produce no output row, as with the SQL lateral join. -/
def getClusterSummary (db : Db) (shuffle : Int → List FaceRec → List FaceRec)
    (eventCode : String) (sampleSize : Nat) :
    Except HttpError (List ClusterInfo) :=
  match findEvent db eventCode with
  | none => .error (.notFound ("Event with code '" ++ eventCode ++ "' not found"))
  | some event =>
    .ok ((eventClusterIds db event.id).filterMap (fun cid =>
      let cfaces := clusterFaces db event.id cid
      let sample := ((shuffle cid cfaces).take sampleSize).filterMap (fun f =>
        (db.images.find? (fun i => i.id == f.image_id)).map
          (fun i => (⟨f.id, i.azure_blob_url, f.bbox⟩ : ClusterSample)))
      if sample.isEmpty then none
      else some ⟨cid, cfaces.length, sample⟩))

/-! ### Concrete fixtures for counterexamples and witnesses -/

/-- Extraction collaborators that always decode, detect exactly one face
and return one embedding. -/
def simEnvOne : SimEnv :=
  ⟨fun _ => some 0, fun _ => [⟨0, 1, 1, 0⟩], fun _ _ => [[1]], fun _ _ _ => 0⟩

/-- Database with no events at all. -/
def dbEmpty : Db := ⟨[], [], []⟩

/-- Event alpha, id 1. -/
def evAlpha : EventRec := ⟨1, "alpha"⟩

/-- Event beta, id 2. -/
def evBeta : EventRec := ⟨2, "beta"⟩

/-- An image of event alpha with uuid u. -/
def imgU : ImageRec := ⟨1, 1, "u", "http://c/images/u.png", "png", 1, 0, 0⟩

/-- A face of event alpha on image u. -/
def faceU : FaceRec := ⟨1, 1, 1, ⟨0, 0, 1, 1⟩, [1], -2⟩

/-- Database holding events alpha and beta, with one image and one face
belonging to alpha only. -/
def dbTwoEvents : Db := ⟨[evAlpha, evBeta], [imgU], [faceU]⟩

/-- Database holding only event alpha, with no images or faces yet. -/
def dbAlpha : Db := ⟨[evAlpha], [], []⟩

/-- Job outcomes where every step succeeds except the face-rows commit:
one face is detected. -/
def jobEnvFaceCommitFails : JobEnv :=
  ⟨true, true, some ([⟨0, 10, 10, 0⟩], [[1, 2]]), true, false⟩

/-- Job outcomes where every step succeeds: one face is detected. -/
def jobEnvAllOk : JobEnv :=
  ⟨true, true, some ([⟨0, 10, 10, 0⟩], [[1, 2]]), true, true⟩

/-! ## Helper lemmas -/

/-- A fold whose step preserves list length preserves list length. -/
theorem foldl_length_eq {α : Type} (f : List α → Nat → List α)
    (hf : ∀ l v, (f l v).length = l.length) :
    ∀ (order : List Nat) (l : List α), (order.foldl f l).length = l.length := by
  intro order
  induction order with
  | nil => intro l; rfl
  | cons v rest ih => intro l; rw [List.foldl_cons, ih, hf]

/-- One Chinese Whispers pass preserves the number of labels. -/
theorem length_cwPass (edges : List CWEdge) (order : List Nat)
    (tie : Nat → Nat) (labs : List Int) :
    (cwPass edges order tie labs).length = labs.length := by
  refine foldl_length_eq _ ?_ order labs
  intro l v
  dsimp only
  split
  · rfl
  · split
    · rfl
    · exact List.length_set l v _

/-- The iterated Chinese Whispers run preserves the number of labels. -/
theorem length_cwLibRun (edges : List CWEdge) (rng : CWRng) :
    ∀ (k : Nat) (labs : List Int), (cwLibRun edges rng k labs).length = labs.length := by
  intro k
  induction k with
  | zero => intro labs; rfl
  | succ n ih => intro labs; rw [cwLibRun, ih, length_cwPass]

/-- The raw label list has one label per input point. -/
theorem length_cwRawLabels (d : List ℚ → List ℚ → ℚ) (pts : List (List ℚ))
    (t : ℚ) (rng : CWRng) : (cwRawLabels d pts t rng).length = pts.length := by
  rw [cwRawLabels, length_cwLibRun, List.length_map, List.length_range]

/-- The post-processing step preserves the number of labels. -/
theorem length_cwPostprocess (raw : List Int) :
    (cwPostprocess raw).length = raw.length := by
  unfold cwPostprocess
  dsimp only
  split
  · exact List.length_replicate _ _
  · exact List.length_map _ _

/-- In a strictly sorted list, the index of a member equals the number of
entries smaller than it. -/
theorem indexOf_eq_countP_of_sorted_lt :
    ∀ {l : List Int}, List.Sorted (· < ·) l → ∀ {a : Int}, a ∈ l →
      l.indexOf a = l.countP (fun x => decide (x < a)) := by
  intro l
  induction l with
  | nil => intro _ a ha; cases ha
  | cons b t ih =>
    intro hs a ha
    have hbt : ∀ x ∈ t, b < x := (List.sorted_cons.mp hs).1
    have hts : List.Sorted (· < ·) t := (List.sorted_cons.mp hs).2
    rcases List.mem_cons.mp ha with rfl | hat
    · rw [List.indexOf_cons_self, List.countP_cons]
      have h0 : t.countP (fun x => decide (x < a)) = 0 := by
        rw [List.countP_eq_zero]
        intro x hx
        simp only [decide_eq_true_eq]
        exact not_lt_of_gt (hbt x hx)
      simp [h0]
    · have hba : b < a := hbt a hat
      have hne : b ≠ a := ne_of_lt hba
      rw [List.indexOf_cons_ne _ hne, List.countP_cons]
      simp only [decide_eq_true_eq, hba, if_pos]
      rw [ih hts hat]

/-- Membership through the first-seen fold: an element is in the result
exactly when it is in the accumulator or in the scanned list. -/
theorem mem_firstSeenAux (l : List Int) :
    ∀ (acc : List Int) (x : Int),
      (x ∈ l.foldl (fun acc y => if y ∈ acc then acc else acc ++ [y]) acc) ↔
        x ∈ acc ∨ x ∈ l := by
  induction l with
  | nil => intro acc x; simp
  | cons a l ih =>
    intro acc x
    rw [List.foldl_cons]
    by_cases ha : a ∈ acc
    · rw [if_pos ha, ih]
      constructor
      · rintro (h | h)
        · exact Or.inl h
        · exact Or.inr (List.mem_cons_of_mem _ h)
      · rintro (h | h)
        · exact Or.inl h
        · rcases List.mem_cons.mp h with rfl | h
          · exact Or.inl ha
          · exact Or.inr h
    · rw [if_neg ha, ih]
      simp only [List.mem_append, List.mem_cons, List.mem_singleton]
      tauto

/-- The first-seen fold preserves freedom from duplicates. -/
theorem nodup_firstSeenAux (l : List Int) :
    ∀ acc : List Int, acc.Nodup →
      (l.foldl (fun acc y => if y ∈ acc then acc else acc ++ [y]) acc).Nodup := by
  induction l with
  | nil => intro acc h; exact h
  | cons a l ih =>
    intro acc h
    rw [List.foldl_cons]
    by_cases ha : a ∈ acc
    · rw [if_pos ha]; exact ih acc h
    · rw [if_neg ha]
      refine ih _ ?_
      rw [(List.concat_eq_append acc a).symm]
      exact List.Nodup.concat ha h

/-- Members of uniqueSorted are exactly the list members. -/
theorem mem_uniqueSorted {raw : List Int} {a : Int} :
    a ∈ uniqueSorted raw ↔ a ∈ raw := by
  unfold uniqueSorted firstSeenDistinct
  rw [(List.perm_insertionSort _ _).mem_iff, mem_firstSeenAux]
  simp

/-- uniqueSorted is strictly sorted. -/
theorem sorted_uniqueSorted (raw : List Int) :
    List.Sorted (· < ·) (uniqueSorted raw) := by
  have hle : List.Sorted (· ≤ ·) (uniqueSorted raw) :=
    List.sorted_insertionSort _ _
  have hnd : (uniqueSorted raw).Nodup := by
    unfold uniqueSorted firstSeenDistinct
    exact (List.perm_insertionSort _ _).nodup_iff.mpr
      (nodup_firstSeenAux raw [] List.nodup_nil)
  exact hle.lt_of_le hnd

/-- filterOpt only keeps elements of its input. -/
theorem mem_of_mem_filterOpt {β : Type} {s : List ImageRec} {o : Option β}
    {p : β → ImageRec → Bool} {i : ImageRec} (h : i ∈ filterOpt s o p) :
    i ∈ s := by
  unfold filterOpt at h
  cases o with
  | none => exact h
  | some b => exact (List.mem_filter.mp h).1

/-- clusterFilter only keeps elements of its input. -/
theorem mem_of_mem_clusterFilter {db : Db} {s : List ImageRec}
    {o : Option (List Int)} {i : ImageRec} (h : i ∈ clusterFilter db s o) :
    i ∈ s := by
  unfold clusterFilter at h
  cases o with
  | none => exact h
  | some cl =>
    by_cases hcl : cl.isEmpty
    · simp only [if_pos hcl] at h; exact h
    · simp only [if_neg hcl] at h; exact (List.mem_filter.mp h).1

/-- Membership in a cluster's face list means membership in the faces
table with the event and cluster of that list. -/
theorem mem_clusterFaces {db : Db} {eid : Nat} {cid : Int} {f : FaceRec}
    (h : f ∈ clusterFaces db eid cid) :
    f ∈ db.faces ∧ f.event_id = eid ∧ f.cluster_id = cid := by
  unfold clusterFaces at h
  have h2 := List.mem_filter.mp h
  refine ⟨h2.1, ?_, ?_⟩
  · have := (Bool.and_eq_true _ _).mp h2.2 |>.1
    exact beq_iff_eq.mp this
  · have := (Bool.and_eq_true _ _).mp h2.2 |>.2
    exact beq_iff_eq.mp this

/-- Structure of every cluster of the summary: correct face count, sample
bound, and samples drawn from that cluster's faces. -/
theorem clusterSummary_struct (db : Db)
    (shuffle : Int → List FaceRec → List FaceRec) (code : String) (n : Nat)
    (ev : EventRec) (hsh : ∀ cid l, List.Perm (shuffle cid l) l)
    (hev : findEvent db code = some ev) :
    ∀ out, getClusterSummary db shuffle code n = .ok out →
      ∀ c ∈ out,
        c.samples.length ≤ min n c.face_count ∧
        c.face_count = (clusterFaces db ev.id c.cluster_id).length ∧
        ∀ s ∈ c.samples, ∃ f ∈ clusterFaces db ev.id c.cluster_id,
          s.face_id = f.id ∧ s.sample_bbox = f.bbox := by
  intro out hout c hc
  unfold getClusterSummary at hout
  rw [hev] at hout
  have hout2 := Except.ok.inj hout
  subst hout2
  obtain ⟨cid, hcid, hsome⟩ := List.mem_filterMap.mp hc
  dsimp only at hsome
  by_cases hemp :
    (((shuffle cid (clusterFaces db ev.id cid)).take n).filterMap (fun f =>
      (db.images.find? (fun i => i.id == f.image_id)).map
        (fun i => (⟨f.id, i.azure_blob_url, f.bbox⟩ : ClusterSample)))).isEmpty = true
  · rw [if_pos hemp] at hsome
    cases hsome
  · rw [if_neg hemp] at hsome
    have hc2 := Option.some.inj hsome
    rw [← hc2]
    refine ⟨?_, rfl, ?_⟩
    · calc (((shuffle cid (clusterFaces db ev.id cid)).take n).filterMap _).length
          ≤ ((shuffle cid (clusterFaces db ev.id cid)).take n).length :=
            List.length_filterMap_le _ _
        _ = min n (shuffle cid (clusterFaces db ev.id cid)).length :=
            List.length_take _ _
        _ = min n (clusterFaces db ev.id cid).length := by
            rw [(hsh cid _).length_eq]
    · intro s hs
      obtain ⟨f, hf, hsf⟩ := List.mem_filterMap.mp hs
      have hf2 : f ∈ clusterFaces db ev.id cid :=
        (hsh cid _).mem_iff.mp (List.mem_of_mem_take hf)
      cases hfind2 : db.images.find? (fun i => i.id == f.image_id) with
      | none => rw [hfind2] at hsf; cases hsf
      | some i =>
        rw [hfind2] at hsf
        have hs2 := Option.some.inj hsf
        exact ⟨f, hf2, by rw [← hs2], by rw [← hs2]⟩

/-! ## Claim theorems -/

section ClaimTheorems

attribute [local semireducible] Rat.add Rat.mul Rat.inv Rat.sub

/-- C3, counterexample: the remap of chinese_whispers_cluster assigns the
new labels by increasing raw label value (np.unique is sorted), not in
first-seen order as the spec states.  The raw labelling 2,1,2,1 arises
from two two-node components whose surviving labels are 2 and 1; the code
persists 1,0,1,0 while the spec's first-seen normalization yields
0,1,0,1. -/
theorem c3_counterexample :
    cwPostprocess [2, 1, 2, 1] = [1, 0, 1, 0] ∧
    specNormalizeLabels (fun _ => false) [2, 1, 2, 1] = [0, 1, 0, 1] ∧
    cwPostprocess [2, 1, 2, 1] ≠ specNormalizeLabels (fun _ => false) [2, 1, 2, 1] :=
  ⟨by decide, by decide, by decide⟩

/-- C3, amended: when at least two distinct raw labels exist, the Chinese
Whispers remap keeps one output label per face and maps each face's raw
label to the number of distinct raw labels strictly smaller than it, so
the contiguous non-negative labels are assigned in increasing raw-label
order (other algorithms' outputs are persisted unmodified by the run
loop). -/
theorem c3_theorem (raw : List Int) (h2 : 2 ≤ (uniqueSorted raw).length) :
    (cwPostprocess raw).length = raw.length ∧
    ∀ i, i < raw.length →
      (cwPostprocess raw).getD i 0 =
        ((uniqueSorted raw).countP (fun x => decide (x < raw.getD i 0)) : Int) := by
  refine ⟨length_cwPostprocess raw, ?_⟩
  intro i hi
  unfold cwPostprocess
  dsimp only
  rw [if_neg (by omega : ¬ (uniqueSorted raw).length = 1)]
  have hsome : raw[i]? = some raw[i] := List.getElem?_eq_getElem hi
  simp only [List.getD_eq_getElem?_getD, List.getElem?_map, hsome, Option.map_some',
    Option.getD_some]
  have hmem : raw[i] ∈ raw := List.getElem_mem hi
  rw [indexOf_eq_countP_of_sorted_lt (sorted_uniqueSorted raw)
    (mem_uniqueSorted.mpr hmem)]

/-- C3, witness: the amended statement instantiated at the raw labelling
2,1,2,1. -/
theorem c3_witness :
    2 ≤ (uniqueSorted [2, 1, 2, 1]).length ∧
    ((cwPostprocess ([2, 1, 2, 1] : List Int)).length =
        ([2, 1, 2, 1] : List Int).length ∧
      ∀ i, i < ([2, 1, 2, 1] : List Int).length →
        (cwPostprocess [2, 1, 2, 1]).getD i 0 =
          ((uniqueSorted [2, 1, 2, 1]).countP
            (fun x => decide (x < ([2, 1, 2, 1] : List Int).getD i 0)) : Int)) :=
  ⟨by decide, c3_theorem [2, 1, 2, 1] (by decide)⟩

/-- C4, counterexample: when the clustering algorithm raises, the run
loop catches the error and continues without writing anything, so two
pending faces keep label -2 instead of being assigned Noise (-1) as the
claim states. -/
theorem c4_counterexample :
    applyEventUpdates [⟨1, -2⟩, ⟨2, -2⟩]
      (runEventUpdates [(1, [1]), (2, [2])]
        (.error "HDBSCAN clustering failed")) = [⟨1, -2⟩, ⟨2, -2⟩] ∧
    applyEventUpdates [⟨1, -2⟩, ⟨2, -2⟩]
      (runEventUpdates [(1, [1]), (2, [2])]
        (.error "HDBSCAN clustering failed")) ≠ [⟨1, -1⟩, ⟨2, -1⟩] :=
  ⟨by decide, by decide⟩

/-- C4, amended: if the selected algorithm raises on an event's input,
the run catches the error and skips that event, leaving every persisted
label unchanged (the loop continues with the remaining events rather than
failing the whole run). -/
theorem c4_theorem (prev : List FaceLab) (rows : List (Nat × List ℚ))
    (msg : String) :
    applyEventUpdates prev (runEventUpdates rows (.error msg)) = prev := by
  unfold runEventUpdates
  dsimp only
  split
  · rfl
  · rfl

/-- C9: when the library's raw output has exactly one distinct label the
clustering function returns Noise (-1) for every face, and with two or
more distinct raw labels it returns a non-negative label for every
face. -/
theorem c9_theorem (d : List ℚ → List ℚ → ℚ) (pts : List (List ℚ)) (t : ℚ)
    (rng : CWRng) :
    ((uniqueSorted (cwRawLabels d pts t rng)).length = 1 →
      chineseWhispersCluster d pts t rng = List.replicate pts.length (-1)) ∧
    (2 ≤ (uniqueSorted (cwRawLabels d pts t rng)).length →
      ∀ x ∈ chineseWhispersCluster d pts t rng, 0 ≤ x) := by
  constructor
  · intro h1
    unfold chineseWhispersCluster cwPostprocess
    dsimp only
    rw [if_pos h1, length_cwRawLabels]
  · intro h2 x hx
    unfold chineseWhispersCluster cwPostprocess at hx
    dsimp only at hx
    rw [if_neg (by omega :
      ¬ (uniqueSorted (cwRawLabels d pts t rng)).length = 1)] at hx
    obtain ⟨lab, _, rfl⟩ := List.mem_map.mp hx
    exact Int.natCast_nonneg _

/-- C9, witness: two points closer than the threshold converge to one
raw label, and the pipeline returns Noise for both faces. -/
theorem c9_witness :
    (uniqueSorted (cwRawLabels euclid1 [[0], [1/10]] 1 rngA)).length = 1 ∧
    chineseWhispersCluster euclid1 [[0], [1/10]] 1 rngA =
      List.replicate ([[0], [1/10]] : List (List ℚ)).length (-1) :=
  ⟨by decide, (c9_theorem euclid1 [[0], [1/10]] 1 rngA).1 (by decide)⟩

/-- The threshold graph of the concrete five points evaluates to the
fixed edge list. -/
theorem buildEdges_cwPoints : buildEdges euclid1 cwPoints (3/2) = cwEdgesEx := by
  decide

/-- First pass under tie-choice 0 merges each pair and pulls the midpoint
into the left pair. -/
theorem cwPassA_init :
    cwPass cwEdgesEx [0, 1, 2, 3, 4] (fun _ => 0) [0, 1, 2, 3, 4] =
      [1, 1, 1, 4, 4] := by decide

/-- Under tie-choice 0 the state with the midpoint in the left pair is a
fixpoint. -/
theorem cwPassA_fix :
    cwPass cwEdgesEx [0, 1, 2, 3, 4] (fun _ => 0) [1, 1, 1, 4, 4] =
      [1, 1, 1, 4, 4] := by decide

/-- First pass under tie-choice 1 gives the same first state. -/
theorem cwPassB_init :
    cwPass cwEdgesEx [0, 1, 2, 3, 4] (fun _ => 1) [0, 1, 2, 3, 4] =
      [1, 1, 1, 4, 4] := by decide

/-- Second pass under tie-choice 1 flips the tied midpoint to the right
pair. -/
theorem cwPassB_step :
    cwPass cwEdgesEx [0, 1, 2, 3, 4] (fun _ => 1) [1, 1, 1, 4, 4] =
      [1, 1, 4, 4, 4] := by decide

/-- Under tie-choice 1 the state with the midpoint in the right pair is a
fixpoint. -/
theorem cwPassB_fix :
    cwPass cwEdgesEx [0, 1, 2, 3, 4] (fun _ => 1) [1, 1, 4, 4, 4] =
      [1, 1, 4, 4, 4] := by decide

/-- A label state fixed by every pass is fixed by the iterated run. -/
theorem cwLibRun_fixpoint (edges : List CWEdge) (rng : CWRng)
    (labs : List Int)
    (h : ∀ k, cwPass edges (rng.visitOrder k) (rng.tiePick k) labs = labs) :
    ∀ n, cwLibRun edges rng n labs = labs := by
  intro n
  induction n with
  | zero => rfl
  | succ m ih => rw [cwLibRun, h, ih]

/-- Raw labels of the concrete run under tie-choice 0. -/
theorem cwRawLabels_rngA :
    cwRawLabels euclid1 cwPoints (3/2) rngA = [1, 1, 1, 4, 4] := by
  have hinit : ((List.range cwPoints.length).map Int.ofNat) =
      ([0, 1, 2, 3, 4] : List Int) := by decide
  unfold cwRawLabels
  rw [buildEdges_cwPoints, hinit]
  have hstep : cwLibRun cwEdgesEx rngA 20 [0, 1, 2, 3, 4] =
      cwLibRun cwEdgesEx rngA 19
        (cwPass cwEdgesEx (rngA.visitOrder 19) (rngA.tiePick 19)
          [0, 1, 2, 3, 4]) := rfl
  rw [hstep]
  have hp : cwPass cwEdgesEx (rngA.visitOrder 19) (rngA.tiePick 19)
      [0, 1, 2, 3, 4] = [1, 1, 1, 4, 4] := cwPassA_init
  rw [hp]
  exact cwLibRun_fixpoint cwEdgesEx rngA _ (fun _ => cwPassA_fix) 19

/-- Raw labels of the concrete run under tie-choice 1. -/
theorem cwRawLabels_rngB :
    cwRawLabels euclid1 cwPoints (3/2) rngB = [1, 1, 4, 4, 4] := by
  have hinit : ((List.range cwPoints.length).map Int.ofNat) =
      ([0, 1, 2, 3, 4] : List Int) := by decide
  unfold cwRawLabels
  rw [buildEdges_cwPoints, hinit]
  have hstep : cwLibRun cwEdgesEx rngB 20 [0, 1, 2, 3, 4] =
      cwLibRun cwEdgesEx rngB 19
        (cwPass cwEdgesEx (rngB.visitOrder 19) (rngB.tiePick 19)
          [0, 1, 2, 3, 4]) := rfl
  rw [hstep]
  have hp : cwPass cwEdgesEx (rngB.visitOrder 19) (rngB.tiePick 19)
      [0, 1, 2, 3, 4] = [1, 1, 1, 4, 4] := cwPassB_init
  rw [hp]
  have hstep2 : cwLibRun cwEdgesEx rngB 19 [1, 1, 1, 4, 4] =
      cwLibRun cwEdgesEx rngB 18
        (cwPass cwEdgesEx (rngB.visitOrder 18) (rngB.tiePick 18)
          [1, 1, 1, 4, 4]) := rfl
  rw [hstep2]
  have hp2 : cwPass cwEdgesEx (rngB.visitOrder 18) (rngB.tiePick 18)
      [1, 1, 1, 4, 4] = [1, 1, 4, 4, 4] := cwPassB_step
  rw [hp2]
  exact cwLibRun_fixpoint cwEdgesEx rngB _ (fun _ => cwPassB_fix) 18

/-- C6, counterexample: the clustering job invokes the chinese_whispers
library without a seed, so the persisted labels depend on ambient RNG
state.  On five embeddings forming two tight pairs and one midpoint tied
between them, two ambient states that only differ in tie-breaking yield
different persisted labels for the same embeddings, algorithm and
hyperparameters. -/
theorem c6_counterexample :
    chineseWhispersCluster euclid1 cwPoints (3/2) rngA = [0, 0, 0, 1, 1] ∧
    chineseWhispersCluster euclid1 cwPoints (3/2) rngB = [0, 0, 1, 1, 1] ∧
    chineseWhispersCluster euclid1 cwPoints (3/2) rngA ≠
      chineseWhispersCluster euclid1 cwPoints (3/2) rngB := by
  have hA : chineseWhispersCluster euclid1 cwPoints (3/2) rngA =
      [0, 0, 0, 1, 1] := by
    unfold chineseWhispersCluster
    rw [cwRawLabels_rngA]
    decide
  have hB : chineseWhispersCluster euclid1 cwPoints (3/2) rngB =
      [0, 0, 1, 1, 1] := by
    unfold chineseWhispersCluster
    rw [cwRawLabels_rngB]
    decide
  refine ⟨hA, hB, ?_⟩
  rw [hA, hB]
  decide

/-- C6, amended: the per-event clustering computation is a deterministic
function of the embeddings, the hyperparameters and the ambient RNG
state: two runs whose ambient visiting orders and tie-break choices
coincide produce identical labels (and, per the counterexample, two runs
may differ otherwise, because the chinese_whispers call is unseeded). -/
theorem c6_theorem (d : List ℚ → List ℚ → ℚ) (pts : List (List ℚ)) (t : ℚ)
    (r1 r2 : CWRng) (hv : ∀ k, r1.visitOrder k = r2.visitOrder k)
    (ht : ∀ k v, r1.tiePick k v = r2.tiePick k v) :
    chineseWhispersCluster d pts t r1 = chineseWhispersCluster d pts t r2 := by
  obtain ⟨v1, t1⟩ := r1
  obtain ⟨v2, t2⟩ := r2
  have hv2 : v1 = v2 := funext hv
  have ht2 : t1 = t2 := funext (fun k => funext (ht k))
  rw [hv2, ht2]

/-- C6, witness: the amended statement applied to coinciding ambient
states. -/
theorem c6_witness :
    (∀ k, rngA.visitOrder k = rngA.visitOrder k) ∧
    (∀ k v, rngA.tiePick k v = rngA.tiePick k v) ∧
    chineseWhispersCluster euclid1 cwPoints (3/2) rngA =
      chineseWhispersCluster euclid1 cwPoints (3/2) rngA :=
  ⟨fun _ => rfl, fun _ _ => rfl,
    c6_theorem euclid1 cwPoints (3/2) rngA rngA (fun _ => rfl) (fun _ _ => rfl)⟩

/-- C10: an accepted upload (image MIME type) is answered immediately
with the freshly generated identifier, an empty storage URL, face count
0 and empty box/embedding lists, for any request body. -/
theorem c10_theorem (contentType : String) (rawBytes : List Nat)
    (freshUuid : String) (h : strStartsWith contentType "image/" = true) :
    uploadRoute contentType rawBytes freshUuid =
      .ok ⟨freshUuid, "", 0, [], []⟩ := by
  unfold uploadRoute
  rw [h]
  rfl

/-- C10, witness: the upload response for a jpeg body of three bytes. -/
theorem c10_witness :
    (strStartsWith "image/jpeg" "image/" = true) ∧
    uploadRoute "image/jpeg" [1, 2, 3] "abc123" =
      .ok ⟨"abc123", "", 0, [], []⟩ :=
  ⟨by decide, c10_theorem "image/jpeg" [1, 2, 3] "abc123" (by decide)⟩

/-- C1, counterexample: a similarity request for an unknown event whose
bytes decode to a single-face image is answered with NotFound only after
decoding, detection and embedding extraction all ran, contradicting the
claim that no extraction work happens for an unknown event. -/
theorem c1_counterexample :
    findSimilarFaces dbEmpty simEnvOne "ghost" [0] "cosine" 5 =
      (.error (.notFound "Event with code 'ghost' not found"),
        [.decode, .detect, .encode]) :=
  rfl

/-- C1, amended: when the event code does not resolve, the similarity
request still fails with NotFound, but only after image decoding, face
detection and embedding extraction were performed on the query bytes
(the event lookup is step 4 of the handler, after the extraction
steps). -/
theorem c1_theorem (db : Db) (env : SimEnv) (code : String) (bytes : List Nat)
    (metric : String) (topK : Nat) (img : Nat)
    (hdec : env.decode bytes = some img)
    (hlen : (env.faceLocations img).length = 1)
    (hev : findEvent db code = none) :
    findSimilarFaces db env code bytes metric topK =
      (.error (.notFound ("Event with code '" ++ code ++ "' not found")),
        [.decode, .detect, .encode]) := by
  unfold findSimilarFaces
  rw [hdec]
  simp only [hlen, hev, bne_self_eq_false, Bool.false_eq_true, if_false]

/-- C1, witness: the amended statement at the concrete unknown-event
request of the counterexample. -/
theorem c1_witness :
    (simEnvOne.decode [0] = some 0) ∧
    ((simEnvOne.faceLocations 0).length = 1) ∧
    (findEvent dbEmpty "ghost" = none) ∧
    findSimilarFaces dbEmpty simEnvOne "ghost" [0] "cosine" 5 =
      (.error (.notFound ("Event with code '" ++ "ghost" ++ "' not found")),
        [.decode, .detect, .encode]) :=
  ⟨rfl, rfl, rfl,
    c1_theorem dbEmpty simEnvOne "ghost" [0] "cosine" 5 0 rfl rfl rfl⟩

/-- C2, counterexample: a terminal state of the ingestion job in which
the face-count commit succeeded but the face-rows commit failed leaves
the image recording one face while zero Face rows exist, so the stored
face count differs from the row count (and is nonzero). -/
theorem c2_counterexample :
    (fullProcessingJob dbAlpha jobEnvFaceCommitFails "alpha" "u1" "a.jpg"
      "http://c" 7 0 0).image.map (fun i => i.faces) = some 1 ∧
    (fullProcessingJob dbAlpha jobEnvFaceCommitFails "alpha" "u1" "a.jpg"
      "http://c" 7 0 0).faceRows.length = 0 :=
  ⟨by decide, by decide⟩

/-- C2, amended: when the two post-detection commits both succeed, every
terminal state of the ingestion job has the image's stored face count
equal to the number of Face rows written for it; if one of the two
commits fails the counts can diverge, as in the counterexample. -/
theorem c2_theorem (db : Db) (env : JobEnv) (code uuid fn curl : String)
    (nid : Nat) (ca lm : Int)
    (hcc : env.countCommitOk = true) (hfc : env.facesCommitOk = true)
    (hdet : ∀ boxes embs, env.detect = some (boxes, embs) →
      boxes.length = embs.length) :
    ∀ img, (fullProcessingJob db env code uuid fn curl nid ca lm).image = some img →
      img.faces =
        (fullProcessingJob db env code uuid fn curl nid ca lm).faceRows.length := by
  obtain ⟨up, ins, det, cc, fc⟩ := env
  subst hcc
  subst hfc
  intro img himg
  cases hfind : findEvent db code with
  | none =>
    unfold fullProcessingJob at himg
    rw [hfind] at himg
    exact absurd himg (by simp)
  | some ev =>
    unfold fullProcessingJob at himg ⊢
    rw [hfind] at himg ⊢
    cases up with
    | false => exact absurd himg (by simp)
    | true =>
      cases ins with
      | false => exact absurd himg (by simp)
      | true =>
        cases det with
        | none =>
          dsimp only at himg ⊢
          have h0 := Option.some.inj himg
          rw [← h0]
          rfl
        | some be =>
          obtain ⟨boxes, embs⟩ := be
          have hlen := hdet boxes embs rfl
          cases boxes with
          | nil =>
            dsimp only at himg ⊢
            have h0 := Option.some.inj himg
            rw [← h0]
            simpa using hlen.symm
          | cons b bs =>
            dsimp only at himg ⊢
            have h0 := Option.some.inj himg
            rw [← h0]
            simp [List.length_zip, hlen]

/-- C2, witness: the amended statement at a successful one-face
ingestion. -/
theorem c2_witness :
    (jobEnvAllOk.countCommitOk = true) ∧ (jobEnvAllOk.facesCommitOk = true) ∧
    (∀ boxes embs, jobEnvAllOk.detect = some (boxes, embs) →
      boxes.length = embs.length) ∧
    ∀ img, (fullProcessingJob dbAlpha jobEnvAllOk "alpha" "u1" "a.jpg"
        "http://c" 7 0 0).image = some img →
      img.faces = (fullProcessingJob dbAlpha jobEnvAllOk "alpha" "u1" "a.jpg"
        "http://c" 7 0 0).faceRows.length :=
  ⟨rfl, rfl,
    (fun boxes embs h => by
      simp only [jobEnvAllOk, Option.some.injEq, Prod.mk.injEq] at h
      obtain ⟨h1, h2⟩ := h
      subst h1; subst h2; rfl),
    c2_theorem dbAlpha jobEnvAllOk "alpha" "u1" "a.jpg" "http://c" 7 0 0 rfl rfl
      (fun boxes embs h => by
        simp only [jobEnvAllOk, Option.some.injEq, Prod.mk.injEq] at h
        obtain ⟨h1, h2⟩ := h
        subst h1; subst h2; rfl)⟩

/-- C7: a successful ingestion with K detected faces writes exactly K
Face rows, each carrying the bounding box converted from the detector's
(top, right, bottom, left) output to {x, y, width, height}, its
embedding, and the Pending label -2, and records K as the image's face
count. -/
theorem c7_theorem (db : Db) (env : JobEnv) (code uuid fn curl : String)
    (nid : Nat) (ca lm : Int) (ev : EventRec) (boxes : List Box4)
    (embs : List (List ℚ))
    (hev : findEvent db code = some ev)
    (hup : env.uploadOk = true) (hins : env.imageInsertOk = true)
    (hdet : env.detect = some (boxes, embs))
    (hlen : boxes.length = embs.length)
    (hcc : env.countCommitOk = true) (hfc : env.facesCommitOk = true) :
    (fullProcessingJob db env code uuid fn curl nid ca lm).faceRows.length =
      embs.length ∧
    (∀ f ∈ (fullProcessingJob db env code uuid fn curl nid ca lm).faceRows,
      f.cluster_id = -2 ∧ f.event_id = ev.id ∧ f.image_id = nid ∧
      ∃ be ∈ boxes.zip embs,
        f.bbox.x = be.1.left ∧ f.bbox.y = be.1.top ∧
        f.bbox.width = be.1.right - be.1.left ∧
        f.bbox.height = be.1.bottom - be.1.top ∧ f.embedding = be.2) ∧
    (fullProcessingJob db env code uuid fn curl nid ca lm).image.map
      (fun i => i.faces) = some embs.length := by
  obtain ⟨up, ins, det, cc, fc⟩ := env
  subst hup; subst hins; subst hcc; subst hfc; subst hdet
  unfold fullProcessingJob
  rw [hev]
  cases boxes with
  | nil =>
    dsimp only
    have h0 : embs.length = 0 := by simpa using hlen.symm
    refine ⟨by simp [h0], ?_, rfl⟩
    intro f hf
    simp at hf
  | cons b bs =>
    dsimp only
    refine ⟨?_, ?_, rfl⟩
    · simp [List.length_zip, ← hlen]
    · intro f hf
      obtain ⟨be, hbe, rfl⟩ := List.mem_map.mp hf
      exact ⟨rfl, rfl, rfl, be, hbe, rfl, rfl, rfl, rfl, rfl⟩

/-- C7, witness: a one-face successful ingestion writes exactly one Face
row. -/
theorem c7_witness :
    (findEvent dbAlpha "alpha" = some evAlpha) ∧
    (jobEnvAllOk.uploadOk = true) ∧ (jobEnvAllOk.imageInsertOk = true) ∧
    (jobEnvAllOk.detect = some ([⟨0, 10, 10, 0⟩], [[1, 2]])) ∧
    (([⟨0, 10, 10, 0⟩] : List Box4).length = ([[1, 2]] : List (List ℚ)).length) ∧
    (jobEnvAllOk.countCommitOk = true) ∧ (jobEnvAllOk.facesCommitOk = true) ∧
    (fullProcessingJob dbAlpha jobEnvAllOk "alpha" "u1" "a.jpg" "http://c"
      7 0 0).faceRows.length = 1 :=
  ⟨by decide, rfl, rfl, rfl, rfl, rfl, rfl,
    (c7_theorem dbAlpha jobEnvAllOk "alpha" "u1" "a.jpg" "http://c" 7 0 0
      evAlpha [⟨0, 10, 10, 0⟩] [[1, 2]] (by decide) rfl rfl rfl rfl rfl rfl).1⟩

/-- C8: every cluster of a summary reports its true face count, its
sample holds at most min(requested_size, cluster_face_count) faces, and
each sampled face belongs to that cluster (ORDER BY RANDOM() modelled as
an arbitrary permutation, so the sample is drawn without replacement). -/
theorem c8_theorem (db : Db) (shuffle : Int → List FaceRec → List FaceRec)
    (code : String) (n : Nat) (ev : EventRec)
    (hsh : ∀ cid l, List.Perm (shuffle cid l) l)
    (hev : findEvent db code = some ev) :
    ∀ out, getClusterSummary db shuffle code n = .ok out →
      ∀ c ∈ out,
        c.samples.length ≤ min n c.face_count ∧
        c.face_count = (clusterFaces db ev.id c.cluster_id).length ∧
        ∀ s ∈ c.samples, ∃ f ∈ clusterFaces db ev.id c.cluster_id,
          s.face_id = f.id ∧ s.sample_bbox = f.bbox :=
  clusterSummary_struct db shuffle code n ev hsh hev

/-- C8, witness: a one-face event summarises to one cluster with one
sample, within the bound. -/
theorem c8_witness :
    (∀ cid l, List.Perm ((fun (_ : Int) (l : List FaceRec) => l) cid l) l) ∧
    (findEvent dbTwoEvents "alpha" = some evAlpha) ∧
    (getClusterSummary dbTwoEvents (fun _ l => l) "alpha" 5 =
      .ok [⟨-2, 1, [⟨1, "http://c/images/u.png", ⟨0, 0, 1, 1⟩⟩]⟩]) ∧
    ((⟨-2, 1, [⟨1, "http://c/images/u.png", ⟨0, 0, 1, 1⟩⟩]⟩ : ClusterInfo).samples.length ≤
        min 5 (⟨-2, 1, [⟨1, "http://c/images/u.png", ⟨0, 0, 1, 1⟩⟩]⟩ : ClusterInfo).face_count ∧
      (⟨-2, 1, [⟨1, "http://c/images/u.png", ⟨0, 0, 1, 1⟩⟩]⟩ : ClusterInfo).face_count =
        (clusterFaces dbTwoEvents evAlpha.id
          (⟨-2, 1, [⟨1, "http://c/images/u.png", ⟨0, 0, 1, 1⟩⟩]⟩ : ClusterInfo).cluster_id).length ∧
      ∀ s ∈ (⟨-2, 1, [⟨1, "http://c/images/u.png", ⟨0, 0, 1, 1⟩⟩]⟩ : ClusterInfo).samples,
        ∃ f ∈ clusterFaces dbTwoEvents evAlpha.id
          (⟨-2, 1, [⟨1, "http://c/images/u.png", ⟨0, 0, 1, 1⟩⟩]⟩ : ClusterInfo).cluster_id,
          s.face_id = f.id ∧ s.sample_bbox = f.bbox) :=
  ⟨fun _ l => List.Perm.refl l, by decide, rfl,
    c8_theorem dbTwoEvents (fun _ l => l) "alpha" 5 evAlpha
      (fun _ l => List.Perm.refl l) (by decide)
      [⟨-2, 1, [⟨1, "http://c/images/u.png", ⟨0, 0, 1, 1⟩⟩]⟩] rfl
      ⟨-2, 1, [⟨1, "http://c/images/u.png", ⟨0, 0, 1, 1⟩⟩]⟩
      (List.mem_singleton.mpr rfl)⟩

/-- C5, counterexample: get_image_detail and delete_image select by image
uuid alone.  With events alpha (id 1) and beta (id 2) and an image
belonging to alpha, a caller supplying event beta still fetches the
image's detail and the delete route (whose path event code is unused)
removes alpha's image and face. -/
theorem c5_counterexample :
    (findEvent dbTwoEvents "beta" = some evBeta) ∧
    evBeta.id = 2 ∧ imgU.event_id = 1 ∧
    getImageDetail dbTwoEvents "u" = .ok ⟨imgU, [⟨1, -2, ⟨0, 0, 1, 1⟩⟩]⟩ ∧
    deleteRoute "beta" "u" dbTwoEvents = .ok ⟨[evAlpha, evBeta], [], []⟩ :=
  ⟨by decide, rfl, rfl, rfl, rfl⟩

/-- C5, amended: the list, nearest-neighbor and cluster-summary
operations are event-scoped (every row they return belongs to the
resolved event); get_image_detail and delete_image, however, select by
image uuid alone, so they can return or remove another event's image, as
the counterexample shows. -/
theorem c5_theorem (db : Db) (code : String) (ev : EventRec)
    (hev : findEvent db code = some ev) :
    (∀ (limit offset : Nat) (df dt : Option Int) (mn mx : Option Nat)
        (cl : Option (List Int)) (out : List ImageRec),
      getImages db code limit offset df dt mn mx cl = .ok out →
      ∀ img ∈ out, img.event_id = ev.id) ∧
    (∀ (env : SimEnv) (bytes : List Nat) (metric : String) (topK : Nat)
        (res : List SimilarFaceOut),
      (findSimilarFaces db env code bytes metric topK).1 = .ok res →
      ∀ r ∈ res, ∃ f ∈ db.faces, f.event_id = ev.id ∧ r.face_id = f.id ∧
        r.embedding = f.embedding) ∧
    (∀ (shuffle : Int → List FaceRec → List FaceRec) (n : Nat)
        (out : List ClusterInfo),
      (∀ cid l, List.Perm (shuffle cid l) l) →
      getClusterSummary db shuffle code n = .ok out →
      ∀ c ∈ out, ∀ s ∈ c.samples, ∃ f ∈ db.faces,
        f.event_id = ev.id ∧ s.face_id = f.id) := by
  refine ⟨?_, ?_, ?_⟩
  · intro limit offset df dt mn mx cl out hout img himg
    unfold getImages at hout
    rw [hev] at hout
    have h2 := Except.ok.inj hout
    subst h2
    have h3 := List.mem_of_mem_drop (List.mem_of_mem_take himg)
    have h4 := (List.perm_insertionSort
      (fun x y : ImageRec => y.last_modified ≤ x.last_modified) _).mem_iff.mp h3
    have h5 := mem_of_mem_clusterFilter h4
    have h6 := mem_of_mem_filterOpt (mem_of_mem_filterOpt
      (mem_of_mem_filterOpt (mem_of_mem_filterOpt h5)))
    exact beq_iff_eq.mp (List.mem_filter.mp h6).2
  · intro env bytes metric topK res hres r hr
    unfold findSimilarFaces at hres
    cases hdec : env.decode bytes with
    | none =>
      rw [hdec] at hres
      dsimp only at hres
      cases hres
    | some img =>
      rw [hdec] at hres
      dsimp only at hres
      by_cases hb : ((env.faceLocations img).length != 1) = true
      · rw [if_pos hb] at hres
        cases hres
      · rw [if_neg hb] at hres
        rw [hev] at hres
        dsimp only at hres
        have h2 := Except.ok.inj hres
        subst h2
        have h3 := (List.perm_insertionSort
          (fun x y : SimilarFaceOut => x.distance ≤ y.distance) _).mem_iff.mp
          (List.mem_of_mem_take hr)
        obtain ⟨f, hf, hsf⟩ := List.mem_filterMap.mp h3
        have hf2 := List.mem_filter.mp hf
        cases hfind2 : db.images.find? (fun i => i.id == f.image_id) with
        | none => rw [hfind2] at hsf; cases hsf
        | some i =>
          rw [hfind2] at hsf
          have hr2 := Option.some.inj hsf
          exact ⟨f, hf2.1, beq_iff_eq.mp hf2.2, by rw [← hr2], by rw [← hr2]⟩
  · intro shuffle n out hsh hout c hc s hs
    obtain ⟨f, hf, hid, _⟩ :=
      (clusterSummary_struct db shuffle code n ev hsh hev out hout c hc).2.2 s hs
    have h2 := mem_clusterFaces hf
    exact ⟨f, h2.1, h2.2.1, hid⟩

/-- C5, witness: the amended scoping statement at a concrete database
(only the event's own image is listed). -/
theorem c5_witness :
    (findEvent dbTwoEvents "alpha" = some evAlpha) ∧
    (∀ img ∈ [imgU], img.event_id = evAlpha.id) :=
  ⟨by decide,
    (c5_theorem dbTwoEvents "alpha" evAlpha (by decide)).1 50 0 none none none
      none none [imgU] rfl⟩

end ClaimTheorems

end Kanta
